import Mathlib

/-!
Shallow embedding of `cmd/trustpilot/main.go`: a scraper that fetches all
review pages of one product, extracts structured `Review` records from the
markup, and merges them into one `ProductReviews` collection.

The network and the HTML parser are external collaborators; they are
modelled as oracles: `httpGet : String → Except String HTTPResponse` maps a
request URL to a transport result (`http.Get`), and
`parseDoc : String → Except String PageDoc` maps a response body to a parsed
document (`goquery.NewDocumentFromReader`).  A `PageDoc` records exactly what
the Go code reads from a parsed document: the list of `div` nodes in document
order (`doc.Find("div")`) and the list of anchors matching
`a[name='pagination-button-last']`.  A `Div` records exactly the pieces
`extractReviewFunc` reads from one div via goquery selectors; an attribute or
child node that is absent is `none` (goquery's `AttrOr`/`Text` then yield the
empty string, which the embedding mirrors with `Option.getD ""`).

The concurrent fan-out over pages 2..N with its channel fan-in is
determinized page-by-page in page order; all ordering-independent claims are
stated on multisets of reviews.  Go string primitives (`strings.Split`,
`strings.HasPrefix`, the two regexes, `strconv.Atoi`) are embedded as
structurally recursive functions over character lists so that every
definition evaluates on concrete inputs.
-/

namespace Scraping

/-- `type Review struct` of main.go: one extracted customer review. -/
structure Review where
  Text : String
  Date : String
  Rating : String
  Title : String
  Link : String
deriving DecidableEq

/-- `type ProductReviews struct` of main.go: the aggregate result. -/
structure ProductReviews where
  ProductName : String
  Reviews : List Review
deriving DecidableEq

/-- One `div` node as seen by `extractReviewFunc`: the `class` attribute, the
`datetime` attribute of its first `time` descendant, the text of the
`p[data-service-review-text-typography]` node, the text of its `h2` node, the
`href` of the `a[data-review-title-typography]` anchor, and the `alt`
attribute of its first `img`.  `none` models an absent node or attribute. -/
structure Div where
  classAttr : Option String
  timeDatetime : Option String
  reviewTextTypography : Option String
  h2Text : Option String
  titleHref : Option String
  imgAlt : Option String
deriving DecidableEq

/-- One anchor matched by `a[name='pagination-button-last']`. -/
structure Anchor where
  href : Option String
deriving DecidableEq

/-- A parsed page: its `div` nodes in document order and its last-page
pagination anchors. -/
structure PageDoc where
  divs : List Div
  paginationLastAnchors : List Anchor
deriving DecidableEq

/-- An HTTP response as `http.Get` returns it: a status code and a body.
The Go code never reads `res.StatusCode`; it is carried here so that this
fact is statable. -/
structure HTTPResponse where
  statusCode : Nat
  body : String
deriving DecidableEq

/-- `fmt.Sprintf(scrapingURL, name)`: the canonical, query-free product URL. -/
def scrapingURL (name : String) : String :=
  "https://www.trustpilot.com/review/" ++ name

/-- `fmt.Sprintf(scrapingPageURL, name, page)`: the page-specific request URL. -/
def scrapingPageURL (name : String) (page : Nat) : String :=
  "https://www.trustpilot.com/review/" ++ name ++ "?page=" ++ toString page

/-- `strings.Split(s, " ")` over character lists: split around every single
space, keeping empty fields (Go keeps them too). -/
def goSplitSpace : List Char → List (List Char)
  | [] => [[]]
  | c :: cs =>
    if c = ' ' then [] :: goSplitSpace cs
    else
      match goSplitSpace cs with
      | [] => [[c]]
      | w :: ws => (c :: w) :: ws

/-- The classification loop of `extractReviewFunc`: fold over
`strings.Split(classes, " ")`, or-ing in `strings.HasPrefix` tests for the
two marker families `styles_reviewCard__` and `styles_cardWrapper__`. -/
def classFlags (classes : String) : Bool × Bool :=
  (goSplitSpace classes.data).foldl
    (fun flags c =>
      (flags.1 || List.isPrefixOf "styles_reviewCard__".data c,
       flags.2 || List.isPrefixOf "styles_cardWrapper__".data c))
    (false, false)

/-- `extractReviewFunc` of main.go, for one div: skip a div with no `class`
attribute; require both marker families; otherwise build the `Review`,
defaulting every absent sub-field to the empty string, and prefixing a
non-empty relative permalink with the canonical product URL.  `none` models
"no review emitted to the channel", `some r` models "r emitted". -/
def extractReviewFunc (productURL : String) (s : Div) : Option Review :=
  match s.classAttr with
  | none => none
  | some classes =>
    let flags := classFlags classes
    let isReviewCard := flags.1
    let isCardWrapper := flags.2
    if !isReviewCard || !isCardWrapper then none
    else
      let dateOfPost := s.timeDatetime.getD ""
      let textOfReview := s.reviewTextTypography.getD ""
      let title := s.h2Text.getD ""
      let link0 := s.titleHref.getD ""
      let link := if link0 ≠ "" then productURL ++ link0 else link0
      let rating := s.imgAlt.getD ""
      some { Text := textOfReview, Date := dateOfPost, Rating := rating,
             Title := title, Link := link }

/-- `doc.Find("div").Each(extractReviewFunc(...))`: the sequence of reviews
emitted for one page, in document order. -/
def extractPageReviews (productURL : String) (divs : List Div) : List Review :=
  divs.filterMap (extractReviewFunc productURL)

/-- Does this character-list position start a match of the pattern
`page=\d+` (literal `page=` followed by at least one ASCII digit)? -/
def pageNumPattern : List Char → Bool
  | 'p' :: 'a' :: 'g' :: 'e' :: '=' :: c :: _ => c.isDigit
  | _ => false

/-- Auxiliary scan: does any suffix of the character list start a match of
`page=\d+`? -/
def containsPageNum : List Char → Bool
  | [] => false
  | c :: cs => pageNumPattern (c :: cs) || containsPageNum cs

/-- `regexp.MatchString("page=\\d+", href)`: unanchored containment of the
pattern (the constant pattern is valid, so the error result is always nil
and is not modelled). -/
def matchPageRegexp (href : String) : Bool :=
  containsPageNum href.data

/-- `regexp.MustCompile("\\d+").FindString(href)`: the leftmost maximal run
of ASCII digits in the string, empty if there is none. -/
def findDigitRun : List Char → List Char
  | [] => []
  | c :: cs => if c.isDigit then c :: cs.takeWhile Char.isDigit else findDigitRun cs

/-- Decimal value of a digit string, most significant first. -/
def digitsToNat (cs : List Char) : Nat :=
  cs.foldl (fun n c => 10 * n + (c.toNat - 48)) 0

/-- Largest value of Go's 64-bit `int`. -/
def maxInt64 : Nat := 9223372036854775807

/-- `strconv.Atoi`, restricted to the sign-free strings produced by
`FindString("\\d+")`: a non-empty all-digit string parses to its decimal
value when that value fits Go's `int`, and any other input (empty, a
non-digit, or an out-of-range value) yields an error. -/
def atoiGo (s : String) : Except String Nat :=
  if !s.data.isEmpty && s.data.all Char.isDigit then
    let n := digitsToNat s.data
    if n ≤ maxInt64 then Except.ok n else Except.error "value out of range"
  else Except.error "invalid syntax"

/-- The pagination-discovery head of `extractReviewsOverPagesFunc`: read the
anchor's `href` (bail out if absent), require a `page=\d+` match (bail out
otherwise), take the FIRST digit run of the whole href, and `Atoi` it
(bail out, after logging, on a parse error).  `some n` means the fan-out
loop will run with `lastPageInt = n`; `none` means the callback returns
without fetching anything. -/
def anchorLastPage (a : Anchor) : Option Nat :=
  match a.href with
  | none => none
  | some href =>
    if !matchPageRegexp href then none
    else
      let lastPage := String.mk (findDigitRun href.data)
      match atoiGo lastPage with
      | Except.error _ => none
      | Except.ok lastPageInt => some lastPageInt

/-- The pages visited by `for i := 2; i <= lastPageInt; i++`. -/
def pagesToFetch (lastPageInt : Nat) : List Nat :=
  List.range' 2 (lastPageInt - 1)

/-- `getPageProductReviews` of main.go: GET the page-specific URL, parse the
body, and extract the page's reviews against the canonical (query-free)
product URL.  A transport or parse failure propagates as an error. -/
def getPageProductReviews (httpGet : String → Except String HTTPResponse)
    (parseDoc : String → Except String PageDoc)
    (name : String) (page : Nat) : Except String (List Review) :=
  match httpGet (scrapingPageURL name page) with
  | Except.error e => Except.error e
  | Except.ok res =>
    match parseDoc res.body with
    | Except.error e => Except.error e
    | Except.ok doc => Except.ok (extractPageReviews (scrapingURL name) doc.divs)

/-- The body of one page goroutine: a failed `getPageProductReviews` is
logged and contributes nothing; a successful one contributes the page's
reviews. -/
def pageContribution (httpGet : String → Except String HTTPResponse)
    (parseDoc : String → Except String PageDoc)
    (name : String) (pageNumber : Nat) : List Review :=
  match getPageProductReviews httpGet parseDoc name pageNumber with
  | Except.error _ => []
  | Except.ok pageReviews => pageReviews

/-- `extractReviewsOverPagesFunc` of main.go, for one matched anchor: the
collection of reviews its fan-out sends to the channel, determinized in page
order (the goroutines interleave arbitrarily; `wg.Wait` joins them all). -/
def extractReviewsOverPagesFunc (httpGet : String → Except String HTTPResponse)
    (parseDoc : String → Except String PageDoc)
    (name : String) (s : Anchor) : List Review :=
  match anchorLastPage s with
  | none => []
  | some lastPageInt =>
    (pagesToFetch lastPageInt).flatMap (pageContribution httpGet parseDoc name)

/-- `getProductReviews` of main.go: GET the canonical product URL (a failure
here aborts the run), parse it (likewise fatal), extract page 1's reviews,
run the pagination fan-out once per matched last-page anchor, and return the
drained collection.  The channel consumer appends page 1's reviews first
(they are emitted before the fan-out starts) and then the page tasks'
reviews in some interleaving, here determinized in page order. -/
def getProductReviews (httpGet : String → Except String HTTPResponse)
    (parseDoc : String → Except String PageDoc)
    (name : String) : Except String ProductReviews :=
  match httpGet (scrapingURL name) with
  | Except.error e => Except.error e
  | Except.ok res =>
    match parseDoc res.body with
    | Except.error e => Except.error e
    | Except.ok doc =>
      let productURL := scrapingURL name
      let page1Reviews := extractPageReviews productURL doc.divs
      let pagesReviews :=
        doc.paginationLastAnchors.flatMap
          (extractReviewsOverPagesFunc httpGet parseDoc name)
      Except.ok { ProductName := name, Reviews := page1Reviews ++ pagesReviews }

/-- Fixture: a review div with every sub-field present. -/
def wDivFull : Div :=
  { classAttr := some "styles_reviewCard__a styles_cardWrapper__b"
  , timeDatetime := some "2024-01-01T00:00:00.000Z"
  , reviewTextTypography := some "great product"
  , h2Text := some "Great"
  , titleHref := some "/reviews/123"
  , imgAlt := some "Rated 5 out of 5 stars" }

/-- Fixture: a qualifying review div with every sub-field absent. -/
def wDivBare : Div :=
  { classAttr := some "styles_reviewCard__a styles_cardWrapper__b"
  , timeDatetime := none, reviewTextTypography := none, h2Text := none
  , titleHref := none, imgAlt := none }

/-- Fixture: a div with no class attribute at all. -/
def wDivNoClass : Div :=
  { classAttr := none, timeDatetime := some "x", reviewTextTypography := some "y"
  , h2Text := some "z", titleHref := some "/w", imgAlt := some "v" }

/-- Fixture: the spec's own link example, a qualifying div whose review-title
anchor carries the relative href of the example. -/
def wDivSpec : Div :=
  { classAttr := some "styles_reviewCard__x styles_cardWrapper__y"
  , timeDatetime := none, reviewTextTypography := none, h2Text := none
  , titleHref := some "/reviews/123", imgAlt := none }

/-- Fixture: a last-page anchor pointing at page 2. -/
def wAnchor : Anchor := ⟨some "?page=2"⟩

/-- Fixture: the first page's parsed document (one review, one anchor). -/
def wDoc1 : PageDoc := ⟨[wDivFull], [wAnchor]⟩

/-- Fixture: page 2's parsed document (one bare review, no anchor). -/
def wDoc2 : PageDoc := ⟨[wDivBare], []⟩

/-- Fixture: a first page carrying TWO identical last-page anchors. -/
def wDocDup : PageDoc := ⟨[wDivFull], [wAnchor, wAnchor]⟩

/-- Fixture transport oracle: page 1 of acme answers body1 with status 200,
page 2 answers body2 with status 404, anything else refuses to connect. -/
def wGet : String → Except String HTTPResponse := fun u =>
  if u = scrapingURL "acme" then Except.ok ⟨200, "body1"⟩
  else if u = scrapingPageURL "acme" 2 then Except.ok ⟨404, "body2"⟩
  else Except.error "connection refused"

/-- Fixture parse oracle. -/
def wParse : String → Except String PageDoc := fun b =>
  if b = "body1" then Except.ok wDoc1
  else if b = "body2" then Except.ok wDoc2
  else Except.error "parse failure"

/-- Fixture transport oracle for the duplicated-anchor run. -/
def wGetDup : String → Except String HTTPResponse := fun u =>
  if u = scrapingURL "acme" then Except.ok ⟨200, "bodyD"⟩
  else if u = scrapingPageURL "acme" 2 then Except.ok ⟨200, "body2"⟩
  else Except.error "connection refused"

/-- Fixture parse oracle for the duplicated-anchor run. -/
def wParseDup : String → Except String PageDoc := fun b =>
  if b = "bodyD" then Except.ok wDocDup
  else if b = "body2" then Except.ok wDoc2
  else Except.error "parse failure"

/-- Folding the two-flag or-accumulator over a list computes the two
existence tests separately. -/
theorem foldl_or_pair {α : Type} (p q : α → Bool) (l : List α) (a b : Bool) :
    l.foldl (fun flags c => (flags.1 || p c, flags.2 || q c)) (a, b)
      = (a || l.any p, b || l.any q) := by
  induction l generalizing a b with
  | nil => simp
  | cons x xs ih => simp [List.foldl_cons, ih, Bool.or_assoc]

/-- The classification loop is equivalent to two independent any-tests over
the split class list. -/
theorem classFlags_eq (classes : String) :
    classFlags classes
      = ((goSplitSpace classes.data).any
           (fun c => List.isPrefixOf "styles_reviewCard__".data c),
         (goSplitSpace classes.data).any
           (fun c => List.isPrefixOf "styles_cardWrapper__".data c)) := by
  simp [classFlags, foldl_or_pair]

/-- Whether a review is emitted depends only on the class flags. -/
theorem extractReviewFunc_isSome (productURL : String) (s : Div) (classes : String)
    (hc : s.classAttr = some classes) :
    (extractReviewFunc productURL s).isSome
      = ((classFlags classes).1 && (classFlags classes).2) := by
  simp only [extractReviewFunc, hc]
  cases h1 : (classFlags classes).1 <;> cases h2 : (classFlags classes).2 <;>
    simp [h1, h2]

/-- Coercing a flatMap to a multiset gives the sum of the per-element
multisets. -/
theorem coe_flatMap_sum {α β : Type} (f : α → List β) (l : List α) :
    (↑(l.flatMap f) : Multiset β) = (l.map (fun a => (↑(f a) : Multiset β))).sum := by
  induction l with
  | nil => rfl
  | cons x xs ih =>
    simp only [List.flatMap_cons, List.map_cons, List.sum_cons, ← ih, ← Multiset.coe_add]

/-- A flatMap whose function is constant on the list contributes the
constant once per element. -/
theorem coe_flatMap_const {α β : Type} (f : α → List β) (c : List β) (l : List α)
    (h : ∀ a ∈ l, f a = c) :
    (↑(l.flatMap f) : Multiset β) = l.length • (↑c : Multiset β) := by
  induction l with
  | nil => simp
  | cons x xs ih =>
    have hx := h x (List.mem_cons_self x xs)
    have ih2 := ih (fun a ha => h a (List.mem_cons_of_mem x ha))
    simp only [List.flatMap_cons, hx, ← Multiset.coe_add, ih2, List.length_cons,
      succ_nsmul]
    rw [add_comm]

/-- The per-anchor fan-out consults the transport oracle only at the
page-specific request URLs. -/
theorem extractReviewsOverPagesFunc_congr
    (g g2 : String → Except String HTTPResponse)
    (parseDoc : String → Except String PageDoc) (name : String) (a : Anchor)
    (h : ∀ pg, g (scrapingPageURL name pg) = g2 (scrapingPageURL name pg)) :
    extractReviewsOverPagesFunc g parseDoc name a
      = extractReviewsOverPagesFunc g2 parseDoc name a := by
  have hpc : pageContribution g parseDoc name = pageContribution g2 parseDoc name :=
    funext fun pg => by simp [pageContribution, getPageProductReviews, h pg]
  simp [extractReviewsOverPagesFunc, hpc]

/-- C1: with a single discovered last-page anchor yielding page count n > 1,
the run succeeds and the merged collection is exactly (as a multiset) page
1's reviews plus, once each, every review of every successfully fetched page
in 2..n (a failed page contributing the empty list); the collection is the
fully drained sink, producers joined before the channel closes and the
consumer finishes. -/
theorem mergeCompleteness (httpGet : String → Except String HTTPResponse)
    (parseDoc : String → Except String PageDoc) (name : String)
    (res : HTTPResponse) (doc : PageDoc) (a : Anchor) (n : Nat)
    (h1 : httpGet (scrapingURL name) = Except.ok res)
    (h2 : parseDoc res.body = Except.ok doc)
    (h3 : doc.paginationLastAnchors = [a])
    (h4 : anchorLastPage a = some n)
    (_h5 : 1 < n) :
    ∃ pr, getProductReviews httpGet parseDoc name = Except.ok pr ∧
      (↑pr.Reviews : Multiset Review)
        = ↑(extractPageReviews (scrapingURL name) doc.divs)
          + ((pagesToFetch n).map
              (fun page =>
                (↑(pageContribution httpGet parseDoc name page) : Multiset Review))).sum := by
  refine ⟨⟨name, extractPageReviews (scrapingURL name) doc.divs ++
      (pagesToFetch n).flatMap (pageContribution httpGet parseDoc name)⟩, ?_, ?_⟩
  · simp [getProductReviews, h1, h2, h3, extractReviewsOverPagesFunc, h4]
  · simp only [← Multiset.coe_add, coe_flatMap_sum]

/-- Witness for the merge-completeness theorem at a concrete two-page run. -/
theorem mergeCompleteness_witness :
    ∃ pr, getProductReviews wGet wParse "acme" = Except.ok pr ∧
      (↑pr.Reviews : Multiset Review)
        = ↑(extractPageReviews (scrapingURL "acme") wDoc1.divs)
          + ((pagesToFetch 2).map
              (fun page =>
                (↑(pageContribution wGet wParse "acme" page) : Multiset Review))).sum :=
  mergeCompleteness wGet wParse "acme" ⟨200, "body1"⟩ wDoc1 wAnchor 2
    rfl rfl rfl (by decide) (by decide)

/-- C2: failure asymmetry.  A page-1 transport or parse failure surfaces as
the run's error; a successful page-1 fetch and parse always yields an ok
ProductReviews whatever happens to later pages; a failed page-k fetch or
parse contributes zero reviews; and a page's contribution depends only on
the oracle's answer for that page's own URL, so sibling pages are
unaffected. -/
theorem failureAsymmetry (httpGet : String → Except String HTTPResponse)
    (parseDoc : String → Except String PageDoc) (name : String) :
    (∀ e, httpGet (scrapingURL name) = Except.error e →
      getProductReviews httpGet parseDoc name = Except.error e) ∧
    (∀ res e, httpGet (scrapingURL name) = Except.ok res →
      parseDoc res.body = Except.error e →
      getProductReviews httpGet parseDoc name = Except.error e) ∧
    (∀ res doc, httpGet (scrapingURL name) = Except.ok res →
      parseDoc res.body = Except.ok doc →
      ∃ pr, getProductReviews httpGet parseDoc name = Except.ok pr) ∧
    (∀ page e, httpGet (scrapingPageURL name page) = Except.error e →
      pageContribution httpGet parseDoc name page = []) ∧
    (∀ page res e, httpGet (scrapingPageURL name page) = Except.ok res →
      parseDoc res.body = Except.error e →
      pageContribution httpGet parseDoc name page = []) ∧
    (∀ (httpGet2 : String → Except String HTTPResponse) page,
      httpGet (scrapingPageURL name page) = httpGet2 (scrapingPageURL name page) →
      pageContribution httpGet parseDoc name page
        = pageContribution httpGet2 parseDoc name page) := by
  refine ⟨?_, ?_, ?_, ?_, ?_, ?_⟩
  · intro e h
    simp [getProductReviews, h]
  · intro res e hg hp
    simp [getProductReviews, hg, hp]
  · intro res doc hg hp
    exact ⟨⟨name, extractPageReviews (scrapingURL name) doc.divs ++
        doc.paginationLastAnchors.flatMap (extractReviewsOverPagesFunc httpGet parseDoc name)⟩,
      by simp [getProductReviews, hg, hp]⟩
  · intro page e h
    simp [pageContribution, getPageProductReviews, h]
  · intro page res e hg hp
    simp [pageContribution, getPageProductReviews, hg, hp]
  · intro g2 page h
    simp [pageContribution, getPageProductReviews, h]

/-- Witness for failure asymmetry: a page-1 transport failure surfaces as
the run's error, and a failed page (page 3 is refused by wGet) contributes
zero reviews. -/
theorem failureAsymmetry_witness :
    getProductReviews (fun _ => Except.error "boom") wParse "acme"
      = Except.error "boom" ∧
    pageContribution wGet wParse "acme" 3 = [] :=
  ⟨(failureAsymmetry (fun _ => Except.error "boom") wParse "acme").1 "boom" rfl,
   (failureAsymmetry wGet wParse "acme").2.2.2.1 3 "connection refused" rfl⟩

/-- C3 as stated is false: this href contains the page-number query value
page=7, yet pagination discovery does not yield 7 (the code takes the FIRST
digit run of the whole href, here the 2 of acme2). -/
theorem paginationYieldsFirstNumberCounterexample :
    anchorLastPage ⟨some "/review/acme2?page=7"⟩ ≠ some 7 := by decide

/-- C3 amended: when the href matches page=\d+, discovery yields the value
of the FIRST digit run of the href (which equals N exactly when the page=N
digits are the first digits in the href, as in a query-only href); the
fan-out then covers pages 2..n; and a first page with no last-page anchor
yields only page 1's reviews, whatever the page oracle would answer. -/
theorem paginationFirstDigitRun (href : String) (n : Nat)
    (hmatch : matchPageRegexp href = true)
    (hrun : atoiGo (String.mk (findDigitRun href.data)) = Except.ok n) :
    anchorLastPage ⟨some href⟩ = some n ∧
    (∀ httpGet parseDoc name,
      extractReviewsOverPagesFunc httpGet parseDoc name ⟨some href⟩
        = (pagesToFetch n).flatMap (pageContribution httpGet parseDoc name)) ∧
    (∀ (httpGet : String → Except String HTTPResponse)
       (parseDoc : String → Except String PageDoc) (name : String) res doc,
      httpGet (scrapingURL name) = Except.ok res →
      parseDoc res.body = Except.ok doc →
      doc.paginationLastAnchors = [] →
      getProductReviews httpGet parseDoc name
        = Except.ok ⟨name, extractPageReviews (scrapingURL name) doc.divs⟩) := by
  have h1 : anchorLastPage ⟨some href⟩ = some n := by
    simp [anchorLastPage, hmatch, hrun]
  refine ⟨h1, ?_, ?_⟩
  · intro g p nm
    simp [extractReviewsOverPagesFunc, h1]
  · intro g p nm res doc hg hp ha
    simp [getProductReviews, hg, hp, ha]

/-- Witness for the amended pagination claim: a query-only href whose first
digits are the page= digits yields that page count. -/
theorem paginationFirstDigitRun_witness :
    anchorLastPage ⟨some "/review/acme?page=7"⟩ = some 7 :=
  (paginationFirstDigitRun "/review/acme?page=7" 7 (by decide) rfl).1

/-- C4: for a content block carrying a class attribute, the Extractor emits
exactly one Review (some r) iff the class list contains at least one class
with the review-card prefix and at least one with the card-wrapper prefix;
a block with markers of only one family yields no Review. -/
theorem extractorRequiresBothMarkers (productURL classes : String) (s : Div)
    (hc : s.classAttr = some classes) :
    (∃ r, extractReviewFunc productURL s = some r) ↔
      ((∃ c ∈ goSplitSpace classes.data,
          List.isPrefixOf "styles_reviewCard__".data c = true) ∧
       (∃ c ∈ goSplitSpace classes.data,
          List.isPrefixOf "styles_cardWrapper__".data c = true)) := by
  have h := extractReviewFunc_isSome productURL s classes hc
  rw [classFlags_eq] at h
  constructor
  · rintro ⟨r, hr⟩
    rw [hr] at h
    simp only [Option.isSome_some] at h
    constructor
    · rcases List.any_eq_true.mp (Bool.and_elim_left h.symm) with ⟨c, hcmem, hcp⟩
      exact ⟨c, hcmem, hcp⟩
    · rcases List.any_eq_true.mp (Bool.and_elim_right h.symm) with ⟨c, hcmem, hcp⟩
      exact ⟨c, hcmem, hcp⟩
  · rintro ⟨⟨c1, hm1, hp1⟩, ⟨c2, hm2, hp2⟩⟩
    have ha1 : (goSplitSpace classes.data).any
        (fun c => List.isPrefixOf "styles_reviewCard__".data c) = true :=
      List.any_eq_true.mpr ⟨c1, hm1, hp1⟩
    have ha2 : (goSplitSpace classes.data).any
        (fun c => List.isPrefixOf "styles_cardWrapper__".data c) = true :=
      List.any_eq_true.mpr ⟨c2, hm2, hp2⟩
    rw [ha1, ha2] at h
    simp only [Bool.and_self] at h
    rcases Option.isSome_iff_exists.mp h with ⟨r, hr⟩
    exact ⟨r, hr⟩

/-- Witness for the both-markers classification at a concrete block. -/
theorem extractorRequiresBothMarkers_witness :
    (∃ r, extractReviewFunc "u" wDivFull = some r) ↔
      ((∃ c ∈ goSplitSpace ("styles_reviewCard__a styles_cardWrapper__b").data,
          List.isPrefixOf "styles_reviewCard__".data c = true) ∧
       (∃ c ∈ goSplitSpace ("styles_reviewCard__a styles_cardWrapper__b").data,
          List.isPrefixOf "styles_cardWrapper__".data c = true)) :=
  extractorRequiresBothMarkers "u" "styles_reviewCard__a styles_cardWrapper__b"
    wDivFull rfl

/-- C5: a block with no class attribute yields no Review; any emitted Review
has empty string for each sub-field whose node or attribute is absent; and
whether a Review is emitted depends only on the class attribute, never on
the sub-fields, so a record is never dropped for a missing sub-field. -/
theorem missingFieldsDefaultEmpty (productURL : String) (s t : Div)
    (hst : s.classAttr = t.classAttr) :
    (s.classAttr = none → extractReviewFunc productURL s = none) ∧
    (∀ r, extractReviewFunc productURL s = some r →
      (s.timeDatetime = none → r.Date = "") ∧
      (s.reviewTextTypography = none → r.Text = "") ∧
      (s.h2Text = none → r.Title = "") ∧
      (s.titleHref = none → r.Link = "") ∧
      (s.imgAlt = none → r.Rating = "")) ∧
    (extractReviewFunc productURL s).isSome = (extractReviewFunc productURL t).isSome := by
  refine ⟨?_, ?_, ?_⟩
  · intro h
    simp [extractReviewFunc, h]
  · intro r hr
    cases hc : s.classAttr with
    | none => simp [extractReviewFunc, hc] at hr
    | some classes =>
      simp only [extractReviewFunc, hc] at hr
      cases h1 : (classFlags classes).1 <;> cases h2 : (classFlags classes).2 <;>
        simp [h1, h2] at hr
      refine ⟨?_, ?_, ?_, ?_, ?_⟩ <;> intro hnone <;>
        simp [← hr, hnone]
  · cases hc : s.classAttr with
    | none =>
      have ht : t.classAttr = none := by rw [← hst, hc]
      simp [extractReviewFunc, hc, ht]
    | some classes =>
      have ht : t.classAttr = some classes := by rw [← hst, hc]
      rw [extractReviewFunc_isSome productURL s classes hc,
        extractReviewFunc_isSome productURL t classes ht]

/-- Witness for the default-empty-fields claim at concrete blocks: the
classless div emits nothing, the bare div's emitted record has empty date,
and emission does not depend on the sub-fields. -/
theorem missingFieldsDefaultEmpty_witness :
    extractReviewFunc "u" wDivNoClass = none ∧
    (wDivBare.timeDatetime = none → (Review.mk "" "" "" "" "").Date = "") ∧
    (extractReviewFunc "u" wDivBare).isSome = (extractReviewFunc "u" wDivFull).isSome :=
  ⟨(missingFieldsDefaultEmpty "u" wDivNoClass wDivNoClass rfl).1 rfl,
   ((missingFieldsDefaultEmpty "u" wDivBare wDivBare rfl).2.1
      (Review.mk "" "" "" "" "") (by decide)).1,
   (missingFieldsDefaultEmpty "u" wDivBare wDivFull rfl).2.2⟩

/-- C6: for any emitted Review, a present non-empty relative href in the
review-title anchor gives link = productURL ++ href (plain concatenation,
no separator); an absent href (or an empty one) gives the empty link. -/
theorem reviewLinkConcatenation (productURL : String) (s : Div) (r : Review)
    (h : extractReviewFunc productURL s = some r) :
    (∀ hrefVal, s.titleHref = some hrefVal → hrefVal ≠ "" →
        r.Link = productURL ++ hrefVal) ∧
    (s.titleHref = none → r.Link = "") ∧
    (s.titleHref = some "" → r.Link = "") := by
  cases hc : s.classAttr with
  | none => simp [extractReviewFunc, hc] at h
  | some classes =>
    simp only [extractReviewFunc, hc] at h
    cases h1 : (classFlags classes).1 <;> cases h2 : (classFlags classes).2 <;>
      simp [h1, h2] at h
    refine ⟨?_, ?_, ?_⟩
    · intro hrefVal hsome hne
      simp [← h, hsome, hne]
    · intro hnone
      simp [← h, hnone]
    · intro hempty
      simp [← h, hempty]

/-- Witness for link concatenation on the spec's example: canonical URL
https://site.test/review/acme and relative link /reviews/123 concatenate
without a separator. -/
theorem reviewLinkConcatenation_witness :
    (Review.mk "" "" "" "" "https://site.test/review/acme/reviews/123").Link
      = "https://site.test/review/acme" ++ "/reviews/123" :=
  (reviewLinkConcatenation "https://site.test/review/acme" wDivSpec
      (Review.mk "" "" "" "" "https://site.test/review/acme/reviews/123") (by decide)).1
    "/reviews/123" rfl (by decide)

/-- C7: pagination discovery never fails the run: a missing href, an href
without a page-number pattern, or an unparseable number each make discovery
yield none, a none-discovery anchor contributes no fetched reviews, and a
run whose only last-page anchor fails discovery still completes without
error, with page 1's reviews only. -/
theorem paginationSoftFailure (httpGet : String → Except String HTTPResponse)
    (parseDoc : String → Except String PageDoc) (name : String) (a : Anchor) :
    (anchorLastPage a = none →
      extractReviewsOverPagesFunc httpGet parseDoc name a = []) ∧
    (a.href = none → anchorLastPage a = none) ∧
    (∀ h, a.href = some h → matchPageRegexp h = false → anchorLastPage a = none) ∧
    (∀ h e, a.href = some h →
      atoiGo (String.mk (findDigitRun h.data)) = Except.error e →
      anchorLastPage a = none) ∧
    (∀ res doc, httpGet (scrapingURL name) = Except.ok res →
      parseDoc res.body = Except.ok doc →
      doc.paginationLastAnchors = [a] → anchorLastPage a = none →
      getProductReviews httpGet parseDoc name
        = Except.ok ⟨name, extractPageReviews (scrapingURL name) doc.divs⟩) := by
  refine ⟨?_, ?_, ?_, ?_, ?_⟩
  · intro h
    simp [extractReviewsOverPagesFunc, h]
  · intro h
    simp [anchorLastPage, h]
  · intro h hh hm
    simp [anchorLastPage, hh, hm]
  · intro h e hh he
    simp [anchorLastPage, hh, he]
  · intro res doc hg hp ha hnone
    simp [getProductReviews, hg, hp, ha, extractReviewsOverPagesFunc, hnone]

/-- Witness for pagination soft failure: a digit run beyond Go's int range
makes discovery yield none and the anchor contribute nothing. -/
theorem paginationSoftFailure_witness :
    extractReviewsOverPagesFunc wGet wParse "acme"
      ⟨some "page=99999999999999999999"⟩ = [] ∧
    anchorLastPage ⟨some "page=99999999999999999999"⟩ = none :=
  have hnone : anchorLastPage ⟨some "page=99999999999999999999"⟩ = none :=
    (paginationSoftFailure wGet wParse "acme"
        ⟨some "page=99999999999999999999"⟩).2.2.2.1
      "page=99999999999999999999" "value out of range" rfl rfl
  ⟨(paginationSoftFailure wGet wParse "acme"
      ⟨some "page=99999999999999999999"⟩).1 hnone, hnone⟩

/-- C8: extraction is a pure function of the document and the canonical URL:
re-running it on the same unchanged document yields an identical multiset
(indeed, the identical document-order sequence) of Review records. -/
theorem extractionIdempotent (productURL : String) (divs : List Div) :
    (↑(extractPageReviews productURL divs) : Multiset Review)
      = ↑(extractPageReviews productURL divs) := rfl

/-- C9: a page fetch fails only on transport or parse failure.  The status
code of a response is never inspected: two oracles answering the same body
with different status codes (for a page, or for page 1) produce identical
results, and an error-status response whose body parses is a successful
fetch yielding that page's extracted reviews. -/
theorem statusCodeIgnored (parseDoc : String → Except String PageDoc)
    (name : String) (page : Nat) (body : String) (c c2 : Nat) :
    (∀ (httpGet httpGet2 : String → Except String HTTPResponse),
      httpGet (scrapingPageURL name page) = Except.ok ⟨c, body⟩ →
      httpGet2 (scrapingPageURL name page) = Except.ok ⟨c2, body⟩ →
      getPageProductReviews httpGet parseDoc name page
        = getPageProductReviews httpGet2 parseDoc name page) ∧
    (∀ (httpGet : String → Except String HTTPResponse) doc,
      httpGet (scrapingPageURL name page) = Except.ok ⟨c, body⟩ →
      parseDoc body = Except.ok doc →
      getPageProductReviews httpGet parseDoc name page
        = Except.ok (extractPageReviews (scrapingURL name) doc.divs)) ∧
    (∀ (httpGet httpGet2 : String → Except String HTTPResponse),
      httpGet (scrapingURL name) = Except.ok ⟨c, body⟩ →
      httpGet2 (scrapingURL name) = Except.ok ⟨c2, body⟩ →
      (∀ pg, httpGet (scrapingPageURL name pg) = httpGet2 (scrapingPageURL name pg)) →
      getProductReviews httpGet parseDoc name
        = getProductReviews httpGet2 parseDoc name) := by
  refine ⟨?_, ?_, ?_⟩
  · intro g g2 hg hg2
    simp [getPageProductReviews, hg, hg2]
  · intro g doc hg hp
    simp [getPageProductReviews, hg, hp]
  · intro g g2 hg hg2 hpages
    have hover : extractReviewsOverPagesFunc g parseDoc name
        = extractReviewsOverPagesFunc g2 parseDoc name :=
      funext fun a => extractReviewsOverPagesFunc_congr g g2 parseDoc name a hpages
    simp [getProductReviews, hg, hg2, hover]

/-- Witness for status-code blindness: wGet answers page 2 with a 404
status, yet the fetch succeeds and yields the page's extracted reviews. -/
theorem statusCodeIgnored_witness :
    getPageProductReviews wGet wParse "acme" 2
      = Except.ok (extractPageReviews (scrapingURL "acme") wDoc2.divs) :=
  (statusCodeIgnored wParse "acme" 2 "body2" 404 404).2.1 wGet wDoc2 rfl rfl

/-- C10: when every matched last-page anchor carries a parseable page count
n, the pages-2..n fan-out runs once per anchor, so with k anchors the run
still succeeds and every review of those pages appears k times: the merged
multiset is page 1's reviews plus k copies of the pages-2..n harvest. -/
theorem fanOutPerAnchor (httpGet : String → Except String HTTPResponse)
    (parseDoc : String → Except String PageDoc) (name : String)
    (res : HTTPResponse) (doc : PageDoc) (n k : Nat)
    (h1 : httpGet (scrapingURL name) = Except.ok res)
    (h2 : parseDoc res.body = Except.ok doc)
    (h3 : doc.paginationLastAnchors.length = k)
    (h4 : ∀ a ∈ doc.paginationLastAnchors, anchorLastPage a = some n) :
    ∃ pr, getProductReviews httpGet parseDoc name = Except.ok pr ∧
      (↑pr.Reviews : Multiset Review)
        = ↑(extractPageReviews (scrapingURL name) doc.divs)
          + k • (↑((pagesToFetch n).flatMap (pageContribution httpGet parseDoc name))
              : Multiset Review) := by
  have hconst : ∀ a ∈ doc.paginationLastAnchors,
      extractReviewsOverPagesFunc httpGet parseDoc name a
        = (pagesToFetch n).flatMap (pageContribution httpGet parseDoc name) := by
    intro a ha
    simp [extractReviewsOverPagesFunc, h4 a ha]
  refine ⟨⟨name, extractPageReviews (scrapingURL name) doc.divs ++
      doc.paginationLastAnchors.flatMap (extractReviewsOverPagesFunc httpGet parseDoc name)⟩,
    ?_, ?_⟩
  · simp [getProductReviews, h1, h2]
  · simp only [← Multiset.coe_add,
      coe_flatMap_const (extractReviewsOverPagesFunc httpGet parseDoc name)
        ((pagesToFetch n).flatMap (pageContribution httpGet parseDoc name))
        doc.paginationLastAnchors hconst, h3]

/-- Witness for the per-anchor fan-out: with two identical anchors the
pages-2..2 harvest is counted twice. -/
theorem fanOutPerAnchor_witness :
    ∃ pr, getProductReviews wGetDup wParseDup "acme" = Except.ok pr ∧
      (↑pr.Reviews : Multiset Review)
        = ↑(extractPageReviews (scrapingURL "acme") wDocDup.divs)
          + 2 • (↑((pagesToFetch 2).flatMap (pageContribution wGetDup wParseDup "acme"))
              : Multiset Review) :=
  fanOutPerAnchor wGetDup wParseDup "acme" ⟨200, "bodyD"⟩ wDocDup 2 2
    rfl rfl rfl (by decide)

end Scraping
